import Mathlib

/-!
Verification of the ILI9488_Pico display driver core.

The development shallowly embeds the driver translation units:

* `src/ili9488.c` and the variant translation unit `unnamed/part_012`
  (addressing engine: window, rotation, pixel and fill operations,
  color conversion);
* `unnamed/part_014` / `src/ili9488_hal.c` (hardware abstraction layer:
  SPI framing primitives and the DMA transfer state machine);
* `unnamed/part_015` / `src/ili9488_gfx.c` (the RGB888 conversion used by
  the graphics layer).

Machine integers are modelled as `Nat`; every masking or shifting step of
the C code is reproduced explicitly.  The byte traffic that a mock
transport would observe is modelled as a list of events, each event being
one byte on the SPI wire tagged with the state of the data/command line;
chip-select framing does not change which bytes are observed and is not
part of the event stream.
-/

namespace ILI9488

/-- One byte on the SPI wire, tagged by the data/command line level under
which it was clocked (`cmd` = DC low, `data` = DC high). -/
inductive Ev where
  | cmd (b : Nat)
  | data (b : Nat)
deriving DecidableEq, Repr

/-! Command opcodes, from `include/ili9488.h`. -/

def ILI9488_PTLON : Nat := 0x12
def ILI9488_NORON : Nat := 0x13
def ILI9488_CASET : Nat := 0x2A
def ILI9488_PASET : Nat := 0x2B
def ILI9488_RAMWR : Nat := 0x2C
def ILI9488_PTLAR : Nat := 0x30
def ILI9488_MADCTL : Nat := 0x36

/-! MADCTL bit definitions, from `include/ili9488.h`. -/

def ILI9488_MADCTL_MY : Nat := 0x80
def ILI9488_MADCTL_MX : Nat := 0x40
def ILI9488_MADCTL_MV : Nat := 0x20
def ILI9488_MADCTL_BGR : Nat := 0x08

/-! HAL framing primitives (`unnamed/part_014`, `src/ili9488_hal.c`), seen
through the mock transport: `ili9488_hal_write_cmd` clocks one byte with DC
low, `ili9488_hal_write_data` one byte with DC high, and
`ili9488_hal_write_data_buffer` clocks all buffer bytes in order with DC
high (its internal 4096-byte chunking only splits the blocking SPI calls;
the byte sequence on the wire is the buffer itself, and an empty buffer is
rejected at the top and produces nothing). -/

def ili9488_hal_write_cmd (c : Nat) : List Ev := [Ev.cmd c]

def ili9488_hal_write_data (b : Nat) : List Ev := [Ev.data b]

def ili9488_hal_write_data_buffer (buf : List Nat) : List Ev :=
  buf.map Ev.data

/-- Set drawing window (`ili9488_set_window`, identical in both driver
variants): column address, row address (big-endian 16-bit bounds, emitted
exactly as passed), then memory write. -/
def ili9488_set_window (x0 y0 x1 y1 : Nat) : List Ev :=
  ili9488_hal_write_cmd ILI9488_CASET ++
  ili9488_hal_write_data (x0 >>> 8) ++
  ili9488_hal_write_data (x0 &&& 0xFF) ++
  ili9488_hal_write_data (x1 >>> 8) ++
  ili9488_hal_write_data (x1 &&& 0xFF) ++
  ili9488_hal_write_cmd ILI9488_PASET ++
  ili9488_hal_write_data (y0 >>> 8) ++
  ili9488_hal_write_data (y0 &&& 0xFF) ++
  ili9488_hal_write_data (y1 >>> 8) ++
  ili9488_hal_write_data (y1 &&& 0xFF) ++
  ili9488_hal_write_cmd ILI9488_RAMWR

/-- Expansion of a 5-bit channel to 6 bits; the source inlines this as
`(*r << 1) | (*r >> 4)` in `rgb565_to_rgb666`. -/
def expand5 (v : Nat) : Nat := (v <<< 1) ||| (v >>> 4)

/-- Convert an RGB565 color to RGB666 (`rgb565_to_rgb666`, identical in
both driver variants): extract the 5/6/5-bit channels, then bit-replicate
the 5-bit red and blue channels to 6 bits; green is already 6-bit. -/
def rgb565_to_rgb666 (color : Nat) : Nat × Nat × Nat :=
  let r := (color >>> 11) &&& 0x1F
  let g := (color >>> 5) &&& 0x3F
  let b := color &&& 0x1F
  (expand5 r, g, expand5 b)

/-- Convert a 24-bit RGB color to RGB666 as in `src/ili9488.c` and
`unnamed/part_015` (`rgb24_to_rgb666`): extract the 8-bit channels and
right-shift each by 2. -/
def rgb24_to_rgb666 (color24 : Nat) : Nat × Nat × Nat :=
  let r := (color24 >>> 16) &&& 0xFF
  let g := (color24 >>> 8) &&& 0xFF
  let b := color24 &&& 0xFF
  (r >>> 2, g >>> 2, b >>> 2)

/-- Convert a 24-bit RGB color as in the `unnamed/part_012` variant of
`ili9488.c` (`rgb24_to_rgb666` there): the 8-bit channels are extracted
and passed through with no shift at all. -/
def rgb24_to_rgb666_noshift (color24 : Nat) : Nat × Nat × Nat :=
  ((color24 >>> 16) &&& 0xFF, (color24 >>> 8) &&& 0xFF, color24 &&& 0xFF)

/-- Modelled from the spec: `rgb666_to_rgb888` is declared in the public
color API of the repository but its implementation is not among the source
files.  The spec requires widening each 6-bit channel back to 8 bits such
that 0x3F maps to 255 and 0x00 to 0, i.e. bit replication of the top bits
into the vacated low bits. -/
def rgb666_widen_channel (v : Nat) : Nat := (v <<< 2) ||| (v >>> 4)

/-- The three RGB666 bytes streamed for one RGB565 pixel. -/
def rgbBytes (color : Nat) : List Nat :=
  let p := rgb565_to_rgb666 color
  [p.1, p.2.1, p.2.2]

/-- Set display orientation (`ili9488_set_rotation`, `unnamed/part_012`;
`src/ili9488.c` uses a lookup table with the same four values): the switch
on `rotation % 4` picks the MADCTL byte and the new logical dimensions;
the C switch has no default, so on an unreachable value the MADCTL byte
stays 0 and the dimensions `w`/`h` stay unchanged.  Returns the emitted
stream and the updated (width, height). -/
def ili9488_set_rotation (rotation w h : Nat) : List Ev × Nat × Nat :=
  let c := match rotation % 4 with
    | 0 => (ILI9488_MADCTL_MX ||| ILI9488_MADCTL_BGR, 320, 480)
    | 1 => (ILI9488_MADCTL_MV ||| ILI9488_MADCTL_BGR, 480, 320)
    | 2 => (ILI9488_MADCTL_MY ||| ILI9488_MADCTL_BGR, 320, 480)
    | 3 => (ILI9488_MADCTL_MX ||| ILI9488_MADCTL_MY |||
            ILI9488_MADCTL_MV ||| ILI9488_MADCTL_BGR, 480, 320)
    | _ => (0, w, h)
  (ili9488_hal_write_cmd ILI9488_MADCTL ++ ili9488_hal_write_data c.1,
   c.2.1, c.2.2)

/-- Draw a single RGB565 pixel (`ili9488_draw_pixel`, identical in both
driver variants): bounds-check against the current logical dimensions and
silently drop out-of-range coordinates; otherwise set a single-cell window
and send the three converted bytes. -/
def ili9488_draw_pixel (w h x y color : Nat) : List Ev :=
  if w ≤ x ∨ h ≤ y then []
  else
    ili9488_set_window x y x y ++
    ili9488_hal_write_data_buffer (rgbBytes color)

/-- Draw a single 24-bit RGB pixel (`ili9488_draw_pixel_rgb24`,
`unnamed/part_012` variant): same bounds check; in range, a single-cell
window followed by the three raw channel bytes (this variant sends them
unshifted). -/
def ili9488_draw_pixel_rgb24 (w h x y color24 : Nat) : List Ev :=
  if w ≤ x ∨ h ≤ y then []
  else
    ili9488_set_window x y x y ++
    ili9488_hal_write_data_buffer
      [(color24 >>> 16) &&& 0xFF, (color24 >>> 8) &&& 0xFF, color24 &&& 0xFF]

/-- The 256-pixel buffer that the large-area path of `ili9488_fill_area`
pre-fills with the repeated 3-byte pattern. -/
def fill_area_buffer (pat : List Nat) : List Nat := (List.replicate 256 pat).flatten

/-- The batching loop of the large-area path of `ili9488_fill_area`
(`unnamed/part_012`): while pixels remain, send `batch_size * 3` bytes of
the pre-filled buffer, where `batch_size` is `remaining > 256 ? 256 :
remaining`. -/
def fill_area_batches (pat : List Nat) (remaining : Nat) : List Ev :=
  if remaining = 0 then []
  else
    ili9488_hal_write_data_buffer
      ((fill_area_buffer pat).take ((if 256 < remaining then 256 else remaining) * 3)) ++
    fill_area_batches pat (remaining - (if 256 < remaining then 256 else remaining))
termination_by remaining
decreasing_by
  split <;> omega

/-- Fast fill of a rectangular area with one RGB565 color
(`ili9488_fill_area`, `unnamed/part_012`): swap reversed coordinates, set
the window, convert the color once; areas of at most 256 pixels are
written pixel by pixel (one 3-byte buffer write per pixel), larger areas
go through the pre-filled 256-pixel batching loop.  No bounds check is
performed. -/
def ili9488_fill_area (x0 y0 x1 y1 color : Nat) : List Ev :=
  let xa := if x1 < x0 then x1 else x0
  let xb := if x1 < x0 then x0 else x1
  let ya := if y1 < y0 then y1 else y0
  let yb := if y1 < y0 then y0 else y1
  let pat := rgbBytes color
  let total := (xb - xa + 1) * (yb - ya + 1)
  ili9488_set_window xa ya xb yb ++
    (if total ≤ 256 then
      (List.replicate total (ili9488_hal_write_data_buffer pat)).flatten
    else fill_area_batches pat total)

/-- The batching loop of `ili9488_fill_area_rgb24` (`unnamed/part_012`):
a 128-pixel batch buffer, `to_send = remaining > 128 ? 128 : remaining`. -/
def fill_area_rgb24_batches (pat : List Nat) (remaining : Nat) : List Ev :=
  if remaining = 0 then []
  else
    ili9488_hal_write_data_buffer
      (((List.replicate 128 pat).flatten).take ((if 128 < remaining then 128 else remaining) * 3)) ++
    fill_area_rgb24_batches pat (remaining - (if 128 < remaining then 128 else remaining))
termination_by remaining
decreasing_by
  split <;> omega

/-- Fast fill with one 24-bit RGB color (`ili9488_fill_area_rgb24`,
`unnamed/part_012`): unlike the RGB565 variant this one bounds-checks
first (before any swap) and returns with nothing emitted when any
coordinate is at or beyond the current logical dimensions; otherwise it
swaps reversed coordinates, sets the window and streams the raw channel
bytes (this variant sends them unshifted) through 128-pixel batches. -/
def ili9488_fill_area_rgb24 (w h x0 y0 x1 y1 color24 : Nat) : List Ev :=
  if w ≤ x0 ∨ h ≤ y0 ∨ w ≤ x1 ∨ h ≤ y1 then []
  else
    let xa := if x1 < x0 then x1 else x0
    let xb := if x1 < x0 then x0 else x1
    let ya := if y1 < y0 then y1 else y0
    let yb := if y1 < y0 then y0 else y1
    let num := (xb - xa + 1) * (yb - ya + 1)
    ili9488_set_window xa ya xb yb ++
      fill_area_rgb24_batches
        [(color24 >>> 16) &&& 0xFF, (color24 >>> 8) &&& 0xFF, color24 &&& 0xFF] num

/-- The inner buffer-filling loop of `ili9488_write_pixels`
(`unnamed/part_012`): for each of `k` pixels, take `colors[color_idx]`,
convert it with `rgb565_to_rgb666`, append the three bytes, and advance
`color_idx = (color_idx + 1) % len`.  Returns the buffer bytes and the
final `color_idx`. -/
def wp_fill_buffer (colors : List Nat) (idx : Nat) : Nat → List Nat × Nat
  | 0 => ([], idx)
  | k + 1 =>
    let rest := wp_fill_buffer colors ((idx + 1) % colors.length) k
    (rgbBytes (colors.getD idx 0) ++ rest.1, rest.2)

/-- The outer batching loop of `ili9488_write_pixels`
(`unnamed/part_012`): while pixels remain, fill a buffer with up to 32
converted pixels (cycling through the color array) and send it. -/
def wp_loop (colors : List Nat) (idx remaining : Nat) : List Ev :=
  if remaining = 0 then []
  else
    ili9488_hal_write_data_buffer
      (wp_fill_buffer colors idx (if remaining < 32 then remaining else 32)).1 ++
    wp_loop colors (wp_fill_buffer colors idx (if remaining < 32 then remaining else 32)).2
      (remaining - (if remaining < 32 then remaining else 32))
termination_by remaining
decreasing_by
  split <;> omega

/-- Batch write of RGB565 pixel data (`ili9488_write_pixels`,
`unnamed/part_012`): a null or empty color array is rejected; otherwise
the window is set and `(x1-x0+1)*(y1-y0+1)` pixels are streamed in
32-pixel batches, cycling through the color array. -/
def ili9488_write_pixels (x0 y0 x1 y1 : Nat) (colors : List Nat) : List Ev :=
  if colors = [] then []
  else
    ili9488_set_window x0 y0 x1 y1 ++
    wp_loop colors 0 ((x1 - x0 + 1) * (y1 - y0 + 1))

/-- State of the HAL DMA machinery (`unnamed/part_014`,
`src/ili9488_hal.c`): the lazily claimed DMA channel (`none` models the
sentinel `-1`), the volatile busy flag, and the chip-select and
data/command GPIO levels (`true` = high). -/
structure HalDmaState where
  channel : Option Nat
  busy : Bool
  cs : Bool
  dc : Bool
deriving DecidableEq, Repr

/-- DMA transfer complete interrupt handler (`dma_complete_handler`,
`unnamed/part_014`): restores CS high and clears the busy flag (the
interrupt acknowledge touches no modelled state). -/
def dma_complete_handler (s : HalDmaState) : HalDmaState :=
  { s with cs := true, busy := false }

/-- Start a DMA transfer (`ili9488_hal_write_data_dma`,
`unnamed/part_014`).  `dataNull` models `data == NULL`.  The call rejects
invalid parameters; then lazily claims and configures the DMA channel if
it has none yet; then fails fast if a transfer is in flight; otherwise it
sets the busy flag, drives DC high and CS low, starts the channel and
reports success. -/
def ili9488_hal_write_data_dma (dataNull : Bool) (len : Nat)
    (s : HalDmaState) : Bool × HalDmaState :=
  if dataNull ∨ len = 0 then (false, s)
  else
    let s1 := match s.channel with
      | none => { s with channel := some 0 }
      | some _ => s
    if s1.busy then (false, s1)
    else (true, { s1 with busy := true, dc := true, cs := false })

/-- Lock-free read of the busy flag (`ili9488_hal_is_dma_busy`). -/
def ili9488_hal_is_dma_busy (s : HalDmaState) : Bool := s.busy

/-- Set partial refresh area (`ili9488_set_partial_area`,
`unnamed/part_012`): coordinates at or beyond the current logical
dimensions cause an early return; otherwise reversed bounds are swapped
and one partial-area command with the big-endian row band is emitted (the
x bounds are swapped too but take no part in the emission). -/
def ili9488_set_partial_area (w h x0 y0 x1 y1 : Nat) : List Ev :=
  if w ≤ x0 ∨ h ≤ y0 ∨ w ≤ x1 ∨ h ≤ y1 then []
  else
    let y := if y1 < y0 then (y1, y0) else (y0, y1)
    ili9488_hal_write_cmd ILI9488_PTLAR ++
    ili9488_hal_write_data (y.1 >>> 8) ++
    ili9488_hal_write_data (y.1 &&& 0xFF) ++
    ili9488_hal_write_data (y.2 >>> 8) ++
    ili9488_hal_write_data (y.2 &&& 0xFF)

end ILI9488

namespace ILI9488

/-- Helper: a 5-bit value, bit-replicated to 6 bits and then widened to
8 bits, keeps its original value in the top 5 bits. -/
theorem widen_expand5_top5 : ∀ k < 32, rgb666_widen_channel (expand5 k) >>> 3 = k := by
  decide

/-- Helper: a 6-bit value widened to 8 bits keeps its top 5 bits. -/
theorem widen_green_top5 : ∀ k < 64, rgb666_widen_channel k >>> 3 = k >>> 1 := by
  decide

/-- Helper: masking with 0x1F yields a value below 32. -/
theorem and_31_lt (v : Nat) : v &&& 0x1F < 32 :=
  Nat.lt_succ_of_le (Nat.and_le_right)

/-- Helper: masking with 0x3F yields a value below 64. -/
theorem and_63_lt (v : Nat) : v &&& 0x3F < 64 :=
  Nat.lt_succ_of_le (Nat.and_le_right)

/-- C3: `rgb565_to_rgb666` extracts the 5/6/5-bit channels and
bit-replicates the 5-bit channels to 6 bits via `(v<<1)|(v>>4)`;
channel 0 maps to 0, the maximal channels (0x1F red/blue, 0x3F green) map
to 0x3F, and widening the result back to 8 bits preserves the top 5 bits
of each channel. -/
theorem rgb565_to_rgb666_spec :
    (∀ v, rgb565_to_rgb666 v =
      (expand5 ((v >>> 11) &&& 0x1F), (v >>> 5) &&& 0x3F, expand5 (v &&& 0x1F))) ∧
    rgb565_to_rgb666 0 = (0, 0, 0) ∧
    rgb565_to_rgb666 0xFFFF = (0x3F, 0x3F, 0x3F) ∧
    expand5 0 = 0 ∧ expand5 0x1F = 0x3F ∧
    (∀ v, rgb666_widen_channel (rgb565_to_rgb666 v).1 >>> 3 = (v >>> 11) &&& 0x1F ∧
      rgb666_widen_channel (rgb565_to_rgb666 v).2.1 >>> 3 = ((v >>> 5) &&& 0x3F) >>> 1 ∧
      rgb666_widen_channel (rgb565_to_rgb666 v).2.2 >>> 3 = v &&& 0x1F) := by
  refine ⟨fun v => rfl, by decide, by decide, by decide, by decide, fun v => ⟨?_, ?_, ?_⟩⟩
  · exact widen_expand5_top5 _ (and_31_lt _)
  · exact widen_green_top5 _ (and_63_lt _)
  · exact widen_expand5_top5 _ (and_31_lt _)

/-- C4 counterexample: the claim asserts that `rgb24_to_rgb666`
right-shifts each channel by 2 in every driver variant, but the variant in
`unnamed/part_012` passes the 8-bit channels through unshifted: on input
0xFFFFFF it produces (0xFF,0xFF,0xFF), not (0x3F,0x3F,0x3F). -/
theorem rgb24_noshift_counterexample :
    rgb24_to_rgb666_noshift 0xFFFFFF = (0xFF, 0xFF, 0xFF) ∧
    rgb24_to_rgb666_noshift 0xFFFFFF ≠ (0x3F, 0x3F, 0x3F) := by
  decide

/-- C4 (amended): `rgb24_to_rgb666` in `src/ili9488.c` and in the gfx
translation unit right-shifts each 8-bit channel by 2 (truncation), so
0x00 maps to 0x00 and 0xFF maps to 0x3F; the `unnamed/part_012` variant
instead passes the 8-bit channels through unshifted, mapping 0xFF to
0xFF. -/
theorem rgb24_to_rgb666_spec :
    (∀ c, rgb24_to_rgb666 c =
      (((c >>> 16) &&& 0xFF) >>> 2, ((c >>> 8) &&& 0xFF) >>> 2, (c &&& 0xFF) >>> 2)) ∧
    rgb24_to_rgb666 0 = (0, 0, 0) ∧
    rgb24_to_rgb666 0xFFFFFF = (0x3F, 0x3F, 0x3F) ∧
    (∀ c, rgb24_to_rgb666_noshift c =
      ((c >>> 16) &&& 0xFF, (c >>> 8) &&& 0xFF, c &&& 0xFF)) ∧
    rgb24_to_rgb666_noshift 0xFFFFFF = (0xFF, 0xFF, 0xFF) := by
  exact ⟨fun c => rfl, by decide, by decide, fun c => rfl, by decide⟩

/-- C6 counterexample: `ili9488_set_window` performs no coordinate
normalization, so passing the corners in swapped order emits a different
byte stream: `setWindow(10,10,5,5)` differs from `setWindow(5,5,10,10)`. -/
theorem set_window_swap_counterexample :
    ili9488_set_window 10 10 5 5 ≠ ili9488_set_window 5 5 10 10 := by
  decide

/-- C6 (amended): `ili9488_set_window` emits the coordinates verbatim in
the order given (column address set with x0 then x1, row address set with
y0 then y1, each as big-endian 16-bit values, then memory write); it does
not swap-normalize, so swapped corners yield a stream with the coordinate
bytes in swapped positions, and normalization is instead performed by
callers such as `ili9488_fill_area` and `ili9488_set_partial_area`. -/
theorem set_window_verbatim (x0 y0 x1 y1 : Nat) :
    ili9488_set_window x0 y0 x1 y1 =
      [Ev.cmd ILI9488_CASET,
       Ev.data (x0 >>> 8), Ev.data (x0 &&& 0xFF),
       Ev.data (x1 >>> 8), Ev.data (x1 &&& 0xFF),
       Ev.cmd ILI9488_PASET,
       Ev.data (y0 >>> 8), Ev.data (y0 &&& 0xFF),
       Ev.data (y1 >>> 8), Ev.data (y1 &&& 0xFF),
       Ev.cmd ILI9488_RAMWR] := by
  rfl

end ILI9488

namespace ILI9488

/-- C5: for each rotation argument, `ili9488_set_rotation` emits exactly
one memory-access-control command (0x36) whose single data byte is 0x48,
0x28, 0x88 or 0xE8 for `rotation % 4` equal to 0, 1, 2, 3 respectively,
and sets the logical dimensions to 480x320 exactly when `rotation % 4` is
1 or 3 and to 320x480 otherwise. -/
theorem set_rotation_spec (rotation w h : Nat) :
    (ili9488_set_rotation rotation w h).1 =
      [Ev.cmd ILI9488_MADCTL,
       Ev.data (if rotation % 4 = 0 then 0x48 else if rotation % 4 = 1 then 0x28
                else if rotation % 4 = 2 then 0x88 else 0xE8)] ∧
    (ili9488_set_rotation rotation w h).2 =
      (if rotation % 4 = 1 ∨ rotation % 4 = 3 then (480, 320) else (320, 480)) := by
  have h4 : rotation % 4 = 0 ∨ rotation % 4 = 1 ∨ rotation % 4 = 2 ∨ rotation % 4 = 3 := by
    omega
  rcases h4 with h | h | h | h <;>
    simp [ili9488_set_rotation, h, ili9488_hal_write_cmd, ili9488_hal_write_data,
      ILI9488_MADCTL_MX, ILI9488_MADCTL_MY, ILI9488_MADCTL_MV, ILI9488_MADCTL_BGR]

/-- C8: out-of-range coordinates make `ili9488_draw_pixel` and
`ili9488_draw_pixel_rgb24` return without emitting any byte; in-range
coordinates emit the single-cell window commands followed by exactly three
data bytes. -/
theorem draw_pixel_clip (w h x y c c24 : Nat) :
    (w ≤ x ∨ h ≤ y →
      ili9488_draw_pixel w h x y c = [] ∧
      ili9488_draw_pixel_rgb24 w h x y c24 = []) ∧
    (x < w → y < h →
      ili9488_draw_pixel w h x y c =
        ili9488_set_window x y x y ++ (rgbBytes c).map Ev.data ∧
      ili9488_draw_pixel_rgb24 w h x y c24 =
        ili9488_set_window x y x y ++
          [Ev.data ((c24 >>> 16) &&& 0xFF), Ev.data ((c24 >>> 8) &&& 0xFF),
           Ev.data (c24 &&& 0xFF)] ∧
      ((rgbBytes c).map Ev.data).length = 3) := by
  constructor
  · intro hout
    constructor
    · simp [ili9488_draw_pixel, hout]
    · simp [ili9488_draw_pixel_rgb24, hout]
  · intro hx hy
    have hin : ¬(w ≤ x ∨ h ≤ y) := by omega
    refine ⟨?_, ?_, ?_⟩
    · simp [ili9488_draw_pixel, hin, ili9488_hal_write_data_buffer]
    · simp [ili9488_draw_pixel_rgb24, hin, ili9488_hal_write_data_buffer]
    · simp [rgbBytes]

/-- C8 witness: on a 320x480 display, `drawPixel(320,0)` and the RGB24
variant emit zero bytes, while the in-range pixel (10,10) emits the
single-cell window plus exactly three data bytes. -/
theorem draw_pixel_clip_witness :
    ((320 : Nat) ≤ 320 ∨ (480 : Nat) ≤ 0) ∧
    (ili9488_draw_pixel 320 480 320 0 7 = [] ∧
      ili9488_draw_pixel_rgb24 320 480 320 0 9 = []) ∧
    (ili9488_draw_pixel 320 480 10 10 7 =
        ili9488_set_window 10 10 10 10 ++ (rgbBytes 7).map Ev.data ∧
      ili9488_draw_pixel_rgb24 320 480 10 10 9 =
        ili9488_set_window 10 10 10 10 ++
          [Ev.data ((9 >>> 16) &&& 0xFF), Ev.data ((9 >>> 8) &&& 0xFF),
           Ev.data (9 &&& 0xFF)] ∧
      ((rgbBytes 7).map Ev.data).length = 3) :=
  ⟨by decide,
   (draw_pixel_clip 320 480 320 0 7 9).1 (by decide),
   (draw_pixel_clip 320 480 10 10 7 9).2 (by decide) (by decide)⟩

/-- C9 counterexample: the claim says no input turns
`ili9488_set_partial_area` into a no-op and that out-of-range bounds are
clamped, but with logical dimensions 320x480 the call with row band
(0, 480) returns early and emits nothing at all. -/
theorem set_partial_area_counterexample :
    ili9488_set_partial_area 320 480 0 0 0 480 = [] := by
  decide

/-- C9 (amended): `ili9488_set_partial_area` swap-normalizes reversed
in-range bounds and then emits exactly one partial-area command (0x30)
carrying the ordered big-endian row band; but bounds at or beyond the
current logical dimensions are rejected by an early return that emits
nothing, rather than being clamped. -/
theorem set_partial_area_spec (w h x0 y0 x1 y1 : Nat) :
    (x0 < w → y0 < h → x1 < w → y1 < h →
      ili9488_set_partial_area w h x0 y0 x1 y1 =
        [Ev.cmd ILI9488_PTLAR,
         Ev.data (min y0 y1 >>> 8), Ev.data (min y0 y1 &&& 0xFF),
         Ev.data (max y0 y1 >>> 8), Ev.data (max y0 y1 &&& 0xFF)]) ∧
    (w ≤ x0 ∨ h ≤ y0 ∨ w ≤ x1 ∨ h ≤ y1 →
      ili9488_set_partial_area w h x0 y0 x1 y1 = []) := by
  constructor
  · intro h0 h1 h2 h3
    have hin : ¬(w ≤ x0 ∨ h ≤ y0 ∨ w ≤ x1 ∨ h ≤ y1) := by omega
    rcases Nat.lt_or_ge y1 y0 with hy | hy
    · have hmin : min y0 y1 = y1 := by omega
      have hmax : max y0 y1 = y0 := by omega
      simp [ili9488_set_partial_area, hin, hy, hmin, hmax,
        ili9488_hal_write_cmd, ili9488_hal_write_data]
    · have hy' : ¬(y1 < y0) := by omega
      have hmin : min y0 y1 = y0 := by omega
      have hmax : max y0 y1 = y1 := by omega
      simp [ili9488_set_partial_area, hin, hy', hmin, hmax,
        ili9488_hal_write_cmd, ili9488_hal_write_data]
  · intro hout
    simp [ili9488_set_partial_area, hout]

/-- C9 witness: in-range reversed bounds (rows 40 down to 20) emit one
ordered partial-area command; the out-of-range row 480 on a 320x480
display emits nothing. -/
theorem set_partial_area_spec_witness :
    ((10 : Nat) < 320 ∧ (40 : Nat) < 480 ∧ (11 : Nat) < 320 ∧ (20 : Nat) < 480 ∧
      ((320 : Nat) ≤ 320 ∨ (480 : Nat) ≤ 40 ∨ (320 : Nat) ≤ 11 ∨ (480 : Nat) ≤ 20)) ∧
    ili9488_set_partial_area 320 480 10 40 11 20 =
      [Ev.cmd ILI9488_PTLAR,
       Ev.data (min 40 20 >>> 8), Ev.data (min 40 20 &&& 0xFF),
       Ev.data (max 40 20 >>> 8), Ev.data (max 40 20 &&& 0xFF)] ∧
    ili9488_set_partial_area 320 480 320 40 11 20 = [] :=
  ⟨by decide,
   (set_partial_area_spec 320 480 10 40 11 20).1 (by decide) (by decide)
     (by decide) (by decide),
   (set_partial_area_spec 320 480 320 40 11 20).2 (by decide)⟩

end ILI9488

namespace ILI9488

/-- Helper: taking the length of the left part plus `n` from an append
yields the left part followed by `n` elements of the right part. -/
theorem take_length_append {α : Type} (l₁ l₂ : List α) (n : Nat) :
    (l₁ ++ l₂).take (l₁.length + n) = l₁ ++ l₂.take n := by
  induction l₁ with
  | nil => simp
  | cons a t ih =>
    have hlen : (a :: t).length + n = (t.length + n) + 1 := by
      simp [List.length_cons]; omega
    rw [hlen, List.cons_append, List.take_succ_cons, ih, List.cons_append]

/-- Helper: taking `k` pattern-lengths of bytes from `n` flattened copies
of a pattern yields `k` flattened copies, for `k ≤ n`. -/
theorem take_flatten_replicate {α : Type} (pat : List α) :
    ∀ k n, k ≤ n →
      ((List.replicate n pat).flatten).take (k * pat.length) =
        (List.replicate k pat).flatten := by
  intro k
  induction k with
  | zero => intro n _; simp
  | succ k ih =>
    intro n hk
    obtain ⟨m, rfl⟩ : ∃ m, n = m + 1 := ⟨n - 1, by omega⟩
    have harith : (k + 1) * pat.length = pat.length + k * pat.length := by ring
    rw [List.replicate_succ, List.flatten_cons, harith, take_length_append,
      ih m (by omega), List.replicate_succ, List.flatten_cons]

/-- Helper: flattening `n` copies of a mapped list is mapping over the
flattening of `n` copies. -/
theorem flatten_replicate_map {α β : Type} (f : α → β) (l : List α) :
    ∀ n, (List.replicate n (l.map f)).flatten = ((List.replicate n l).flatten).map f := by
  intro n
  induction n with
  | zero => simp
  | succ n ih =>
    rw [List.replicate_succ, List.flatten_cons, ih, List.replicate_succ,
      List.flatten_cons, List.map_append]

/-- Helper: the 256-pixel batching loop of `ili9488_fill_area` emits
exactly `n` copies of the 3-byte pattern, as data bytes. -/
theorem fill_area_batches_eq (pat : List Nat) (hp : pat.length = 3) :
    ∀ n, fill_area_batches pat n = ((List.replicate n pat).flatten).map Ev.data := by
  intro n
  induction n using Nat.strong_induction_on with
  | _ n ih =>
    rw [fill_area_batches]
    split
    · rename_i h; subst h; simp
    · rename_i h
      rcases Nat.lt_or_ge 256 n with hlt | hge
      · have hiff : (if 256 < n then 256 else n) = 256 := if_pos hlt
        rw [hiff, fill_area_buffer, show 256 * 3 = 256 * pat.length by rw [hp],
          take_flatten_replicate pat 256 256 le_rfl,
          ih (n - 256) (by omega), ili9488_hal_write_data_buffer,
          ← List.map_append, ← List.flatten_append, ← List.replicate_add,
          show 256 + (n - 256) = n by omega]
      · have hiff : (if 256 < n then 256 else n) = n := if_neg (by omega)
        rw [hiff, fill_area_buffer, show n * 3 = n * pat.length by rw [hp],
          take_flatten_replicate pat n 256 hge,
          ih (n - n) (by omega), ili9488_hal_write_data_buffer,
          Nat.sub_self, List.replicate_zero, List.flatten_nil, List.map_nil,
          List.append_nil]

/-- Helper: the stream of `ili9488_fill_area` is the window for the
normalized rectangle followed by one 3-byte pattern per pixel of the
rectangle, whichever path is taken. -/
theorem fill_area_eq (x0 y0 x1 y1 c : Nat) :
    ili9488_fill_area x0 y0 x1 y1 c =
      ili9488_set_window (min x0 x1) (min y0 y1) (max x0 x1) (max y0 y1) ++
      ((List.replicate ((max x0 x1 - min x0 x1 + 1) * (max y0 y1 - min y0 y1 + 1))
        (rgbBytes c)).flatten).map Ev.data := by
  have hx1 : (if x1 < x0 then x1 else x0) = min x0 x1 := by split <;> omega
  have hx2 : (if x1 < x0 then x0 else x1) = max x0 x1 := by split <;> omega
  have hy1 : (if y1 < y0 then y1 else y0) = min y0 y1 := by split <;> omega
  have hy2 : (if y1 < y0 then y0 else y1) = max y0 y1 := by split <;> omega
  rw [ili9488_fill_area]
  simp only [hx1, hx2, hy1, hy2]
  congr 1
  split
  · rw [show ili9488_hal_write_data_buffer (rgbBytes c) = (rgbBytes c).map Ev.data from rfl,
      flatten_replicate_map]
  · exact fill_area_batches_eq (rgbBytes c) rfl _

/-- C2: `ili9488_fill_area` swap-normalizes reversed coordinates and,
after the window commands for the normalized rectangle, emits exactly
`(x1-x0+1)*(y1-y0+1)` repetitions of the same converted 3-byte pattern;
and for every pixel count the 256-pixel batching path emits a byte stream
identical to the pixel-by-pixel path. -/
theorem fill_area_spec :
    (∀ x0 y0 x1 y1 c, ili9488_fill_area x0 y0 x1 y1 c =
      ili9488_set_window (min x0 x1) (min y0 y1) (max x0 x1) (max y0 y1) ++
      ((List.replicate ((max x0 x1 - min x0 x1 + 1) * (max y0 y1 - min y0 y1 + 1))
        (rgbBytes c)).flatten).map Ev.data) ∧
    (∀ n c, fill_area_batches (rgbBytes c) n =
      (List.replicate n (ili9488_hal_write_data_buffer (rgbBytes c))).flatten) := by
  refine ⟨fill_area_eq, fun n c => ?_⟩
  rw [fill_area_batches_eq (rgbBytes c) rfl n,
    show ili9488_hal_write_data_buffer (rgbBytes c) = (rgbBytes c).map Ev.data from rfl,
    flatten_replicate_map]

/-- C10: the two bulk-fill entry points disagree on out-of-range input:
`ili9488_fill_area_rgb24` returns immediately with zero bytes emitted,
while `ili9488_fill_area` performs no bounds check and still emits the
window commands and the full unclipped pixel stream for the same
rectangle. -/
theorem fill_bounds_policy (w h x0 y0 x1 y1 c565 c24 : Nat)
    (hout : w ≤ x0 ∨ h ≤ y0 ∨ w ≤ x1 ∨ h ≤ y1) :
    ili9488_fill_area_rgb24 w h x0 y0 x1 y1 c24 = [] ∧
    ili9488_fill_area x0 y0 x1 y1 c565 =
      ili9488_set_window (min x0 x1) (min y0 y1) (max x0 x1) (max y0 y1) ++
      ((List.replicate ((max x0 x1 - min x0 x1 + 1) * (max y0 y1 - min y0 y1 + 1))
        (rgbBytes c565)).flatten).map Ev.data ∧
    ili9488_fill_area x0 y0 x1 y1 c565 ≠ [] := by
  refine ⟨by simp [ili9488_fill_area_rgb24, hout], fill_area_eq x0 y0 x1 y1 c565, ?_⟩
  rw [fill_area_eq x0 y0 x1 y1 c565]
  simp [ili9488_set_window, ili9488_hal_write_cmd]

/-- C10 witness: on a 320x480 display the rectangle (0,0)-(320,10) is out
of range; the RGB24 fill emits nothing while the RGB565 fill emits the
window plus the full pixel stream. -/
theorem fill_bounds_policy_witness :
    ((320 : Nat) ≤ 0 ∨ (480 : Nat) ≤ 0 ∨ (320 : Nat) ≤ 320 ∨ (480 : Nat) ≤ 10) ∧
    (ili9488_fill_area_rgb24 320 480 0 0 320 10 0xFF0000 = [] ∧
      ili9488_fill_area 0 0 320 10 0xF800 =
        ili9488_set_window (min 0 320) (min 0 10) (max 0 320) (max 0 10) ++
        ((List.replicate ((max 0 320 - min 0 320 + 1) * (max 0 10 - min 0 10 + 1))
          (rgbBytes 0xF800)).flatten).map Ev.data ∧
      ili9488_fill_area 0 0 320 10 0xF800 ≠ []) :=
  ⟨by decide, fill_bounds_policy 320 480 0 0 320 10 0xF800 0xFF0000 (by decide)⟩

end ILI9488

namespace ILI9488

/-- Helper: the final color index of the buffer-filling loop is the start
index advanced by the pixel count, modulo the array length. -/
theorem wp_fill_buffer_snd (colors : List Nat) (hlen : 0 < colors.length) :
    ∀ k idx, idx < colors.length →
      (wp_fill_buffer colors idx k).2 = (idx + k) % colors.length := by
  intro k
  induction k with
  | zero =>
    intro idx hidx
    rw [wp_fill_buffer, Nat.add_zero, Nat.mod_eq_of_lt hidx]
  | succ k ih =>
    intro idx hidx
    have hmod : (idx + 1) % colors.length < colors.length := Nat.mod_lt _ hlen
    show (wp_fill_buffer colors ((idx + 1) % colors.length) k).2 = _
    rw [ih ((idx + 1) % colors.length) hmod, Nat.mod_add_mod]
    congr 1
    omega

/-- Helper: the bytes produced by the buffer-filling loop are the
conversions of `colors[(idx + i) % len]` for `i` from 0 to `k - 1`, in
order. -/
theorem wp_fill_buffer_fst (colors : List Nat) (hlen : 0 < colors.length) :
    ∀ k idx, idx < colors.length →
      (wp_fill_buffer colors idx k).1 =
        ((List.range k).map
          (fun i => rgbBytes (colors.getD ((idx + i) % colors.length) 0))).flatten := by
  intro k
  induction k with
  | zero => intro idx _; simp [wp_fill_buffer]
  | succ k ih =>
    intro idx hidx
    have hmod : (idx + 1) % colors.length < colors.length := Nat.mod_lt _ hlen
    show rgbBytes (colors.getD idx 0) ++
        (wp_fill_buffer colors ((idx + 1) % colors.length) k).1 = _
    rw [ih ((idx + 1) % colors.length) hmod,
      List.range_succ_eq_map, List.map_cons, List.flatten_cons, List.map_map]
    congr 2
    · rw [Nat.add_zero, Nat.mod_eq_of_lt hidx]
    · apply List.map_congr_left
      intro i _
      simp only [Function.comp_apply, Nat.succ_eq_add_one]
      rw [Nat.mod_add_mod, show idx + 1 + i = idx + (i + 1) from by omega]

/-- Helper: the outer batching loop flattens to one conversion per pixel,
cycling through the color array from the given index. -/
theorem wp_loop_eq (colors : List Nat) (hlen : 0 < colors.length) :
    ∀ remaining idx, idx < colors.length →
      wp_loop colors idx remaining =
        (((List.range remaining).map
          (fun i => rgbBytes (colors.getD ((idx + i) % colors.length) 0))).flatten).map
          Ev.data := by
  intro remaining
  induction remaining using Nat.strong_induction_on with
  | _ remaining ih =>
    intro idx hidx
    rw [wp_loop]
    split
    · rename_i h; subst h; simp
    · rename_i h
      have hk1 : 1 ≤ (if remaining < 32 then remaining else 32) := by split <;> omega
      have hkr : (if remaining < 32 then remaining else 32) ≤ remaining := by
        split <;> omega
      rw [wp_fill_buffer_snd colors hlen _ idx hidx,
        wp_fill_buffer_fst colors hlen _ idx hidx,
        ih (remaining - (if remaining < 32 then remaining else 32)) (by omega)
          ((idx + (if remaining < 32 then remaining else 32)) % colors.length)
          (Nat.mod_lt _ hlen),
        ili9488_hal_write_data_buffer, ← List.map_append, ← List.flatten_append]
      conv_rhs =>
        rw [show remaining = (if remaining < 32 then remaining else 32) +
            (remaining - (if remaining < 32 then remaining else 32)) from by omega,
          List.range_add, List.map_append]
      congr 3
      rw [List.map_map]
      apply List.map_congr_left
      intro i _
      simp only [Function.comp_apply]
      rw [Nat.mod_add_mod, show idx + (if remaining < 32 then remaining else 32) + i =
        idx + ((if remaining < 32 then remaining else 32) + i) from by omega]

/-- Helper: the full stream of `ili9488_write_pixels` for a non-empty
color array is the window followed by one converted pixel per cell of the
area, cycling through the array modulo its length. -/
theorem write_pixels_eq (x0 y0 x1 y1 : Nat) (colors : List Nat)
    (hne : colors ≠ []) :
    ili9488_write_pixels x0 y0 x1 y1 colors =
      ili9488_set_window x0 y0 x1 y1 ++
      (((List.range ((x1 - x0 + 1) * (y1 - y0 + 1))).map
        (fun i => rgbBytes (colors.getD (i % colors.length) 0))).flatten).map
        Ev.data := by
  have hlen : 0 < colors.length := List.length_pos.mpr hne
  rw [ili9488_write_pixels, if_neg hne,
    wp_loop_eq colors hlen ((x1 - x0 + 1) * (y1 - y0 + 1)) 0 hlen]
  simp

/-- Helper: mapping a function of `getD` over the index range of a list
is mapping it over the list. -/
theorem map_range_getD {α β : Type} (g : α → β) (d : α) :
    ∀ l : List α, (List.range l.length).map (fun i => g (l.getD i d)) = l.map g := by
  intro l
  induction l with
  | nil => simp
  | cons a t ih =>
    have htail : (List.range t.length).map
        ((fun i => g ((a :: t).getD i d)) ∘ Nat.succ) =
        (List.range t.length).map (fun i => g (t.getD i d)) := by
      apply List.map_congr_left
      intro i _
      rfl
    rw [List.length_cons, List.range_succ_eq_map, List.map_cons, List.map_map,
      htail, ih, List.map_cons]
    rfl

/-- C7: over a window of `n = (x1-x0+1)*(y1-y0+1)` pixels with a non-empty
color array, `ili9488_write_pixels` emits exactly `n` converted 3-byte
pixels where pixel `i` (raster order) is the conversion of
`colors[i mod len]`; when `len = n` each array element is used exactly
once, and over a 4-pixel row with two colors the emission is A,B,A,B. -/
theorem write_pixels_cycles (x0 y0 x1 y1 : Nat) (colors : List Nat)
    (hne : colors ≠ []) :
    ili9488_write_pixels x0 y0 x1 y1 colors =
      ili9488_set_window x0 y0 x1 y1 ++
      (((List.range ((x1 - x0 + 1) * (y1 - y0 + 1))).map
        (fun i => rgbBytes (colors.getD (i % colors.length) 0))).flatten).map
        Ev.data ∧
    (colors.length = (x1 - x0 + 1) * (y1 - y0 + 1) →
      ili9488_write_pixels x0 y0 x1 y1 colors =
        ili9488_set_window x0 y0 x1 y1 ++
        ((colors.map rgbBytes).flatten).map Ev.data) ∧
    (∀ A B : Nat, ili9488_write_pixels 0 0 3 0 [A, B] =
      ili9488_set_window 0 0 3 0 ++
      (rgbBytes A ++ rgbBytes B ++ rgbBytes A ++ rgbBytes B).map Ev.data) := by
  have hmaps : (List.range colors.length).map
      (fun i => rgbBytes (colors.getD (i % colors.length) 0)) =
      colors.map rgbBytes := by
    have h1 : ∀ i ∈ List.range colors.length,
        rgbBytes (colors.getD (i % colors.length) 0) =
          rgbBytes (colors.getD i 0) := by
      intro i hi
      rw [Nat.mod_eq_of_lt (List.mem_range.mp hi)]
    rw [List.map_congr_left h1, map_range_getD]
  refine ⟨write_pixels_eq x0 y0 x1 y1 colors hne, ?_, ?_⟩
  · intro hlen'
    rw [write_pixels_eq x0 y0 x1 y1 colors hne, ← hlen', hmaps]
  · intro A B
    rw [write_pixels_eq 0 0 3 0 [A, B] (by simp)]
    simp [List.range_succ, rgbBytes]

/-- C7 witness: a 2-pixel row written from a 2-color array; the array is
non-empty and its length equals the pixel count. -/
theorem write_pixels_cycles_witness :
    ([1, 2] ≠ ([] : List Nat)) ∧
    (ili9488_write_pixels 0 0 1 0 [1, 2] =
      ili9488_set_window 0 0 1 0 ++
      (((List.range ((1 - 0 + 1) * (0 - 0 + 1))).map
        (fun i => rgbBytes ([1, 2].getD (i % [1, 2].length) 0))).flatten).map
        Ev.data ∧
    ([1, 2].length = (1 - 0 + 1) * (0 - 0 + 1) →
      ili9488_write_pixels 0 0 1 0 [1, 2] =
        ili9488_set_window 0 0 1 0 ++
        (([1, 2].map rgbBytes).flatten).map Ev.data) ∧
    (∀ A B : Nat, ili9488_write_pixels 0 0 3 0 [A, B] =
      ili9488_set_window 0 0 3 0 ++
      (rgbBytes A ++ rgbBytes B ++ rgbBytes A ++ rgbBytes B).map Ev.data)) :=
  ⟨by decide, write_pixels_cycles 0 0 1 0 [1, 2] (by decide)⟩

/-- C1: at most one DMA transfer is in flight.  A call made while the busy
flag is set (the channel is then already claimed, which holds in every
reachable busy state) returns `false` and leaves the whole state — flag,
channel, CS and DC lines — unchanged; no call to the start function ever
clears a set busy flag, only the completion handler does; and from any
idle state two consecutive valid calls return `true` then `false` (the
second leaving the state unchanged), while a third call issued after the
completion handler has run returns `true` again. -/
theorem dma_single_flight :
    (∀ (s : HalDmaState) (d : Bool) (len : Nat),
      s.busy = true → s.channel.isSome →
      ili9488_hal_write_data_dma d len s = (false, s)) ∧
    (∀ (s : HalDmaState) (d : Bool) (len : Nat),
      s.busy = true → (ili9488_hal_write_data_dma d len s).2.busy = true) ∧
    (∀ s : HalDmaState,
      (dma_complete_handler s).busy = false ∧ (dma_complete_handler s).cs = true) ∧
    (∀ (s₀ : HalDmaState) (len : Nat), s₀.busy = false → len ≠ 0 →
      (ili9488_hal_write_data_dma false len s₀).1 = true ∧
      (ili9488_hal_write_data_dma false len
        (ili9488_hal_write_data_dma false len s₀).2).1 = false ∧
      (ili9488_hal_write_data_dma false len
        (ili9488_hal_write_data_dma false len s₀).2).2 =
        (ili9488_hal_write_data_dma false len s₀).2 ∧
      (ili9488_hal_write_data_dma false len
        (dma_complete_handler
          (ili9488_hal_write_data_dma false len
            (ili9488_hal_write_data_dma false len s₀).2).2)).1 = true) ∧
    (∀ (s : HalDmaState) (d : Bool) (len : Nat),
      (s.busy = true → s.channel.isSome) →
      ((ili9488_hal_write_data_dma d len s).2.busy = true →
        (ili9488_hal_write_data_dma d len s).2.channel.isSome)) ∧
    (∀ s : HalDmaState,
      (dma_complete_handler s).busy = true →
        (dma_complete_handler s).channel.isSome) := by
  refine ⟨?_, ?_, fun s => ⟨rfl, rfl⟩, ?_, ?_, ?_⟩
  · intro s d len hbusy hch
    rcases s with ⟨ch, busy, cs, dc⟩
    have hb : busy = true := hbusy
    subst hb
    cases ch with
    | none => simp at hch
    | some c =>
      unfold ili9488_hal_write_data_dma
      split
      · rfl
      · rfl
  · intro s d len hbusy
    rcases s with ⟨ch, busy, cs, dc⟩
    have hb : busy = true := hbusy
    subst hb
    cases ch with
    | none =>
      unfold ili9488_hal_write_data_dma
      split
      · rfl
      · rfl
    | some c =>
      unfold ili9488_hal_write_data_dma
      split
      · rfl
      · rfl
  · intro s₀ len hb hlen
    rcases s₀ with ⟨ch, busy, cs, dc⟩
    have hb' : busy = false := hb
    subst hb'
    cases ch with
    | none =>
      refine ⟨?_, ?_, ?_, ?_⟩ <;>
        simp [ili9488_hal_write_data_dma, dma_complete_handler, hlen]
    | some c =>
      refine ⟨?_, ?_, ?_, ?_⟩ <;>
        simp [ili9488_hal_write_data_dma, dma_complete_handler, hlen]
  · intro s d len hinv
    rcases s with ⟨ch, busy, cs, dc⟩
    cases ch with
    | none =>
      cases busy with
      | true =>
        unfold ili9488_hal_write_data_dma
        split
        · exact hinv
        · exact fun _ => rfl
      | false =>
        unfold ili9488_hal_write_data_dma
        split
        · exact fun hb => nomatch hb
        · exact fun _ => rfl
    | some c =>
      cases busy with
      | true =>
        unfold ili9488_hal_write_data_dma
        split
        · exact hinv
        · exact fun _ => rfl
      | false =>
        unfold ili9488_hal_write_data_dma
        split
        · exact fun hb => nomatch hb
        · exact fun _ => rfl
  · intro s hb
    simp [dma_complete_handler] at hb

/-- C1 witness: in the busy state (channel claimed, CS low, DC high) a
start call fails and changes nothing; from the fresh idle state the calls
return true, false, then — after the completion handler — true again. -/
theorem dma_single_flight_witness :
    ((HalDmaState.mk (some 0) true false true).busy = true ∧
      (HalDmaState.mk (some 0) true false true).channel.isSome ∧
      (HalDmaState.mk none false true true).busy = false ∧ (3 : Nat) ≠ 0) ∧
    ili9488_hal_write_data_dma false 3 (HalDmaState.mk (some 0) true false true) =
      (false, HalDmaState.mk (some 0) true false true) ∧
    (ili9488_hal_write_data_dma false 3 (HalDmaState.mk none false true true)).1 =
      true ∧
    (ili9488_hal_write_data_dma false 3
      (ili9488_hal_write_data_dma false 3
        (HalDmaState.mk none false true true)).2).1 = false ∧
    (ili9488_hal_write_data_dma false 3
      (dma_complete_handler
        (ili9488_hal_write_data_dma false 3
          (ili9488_hal_write_data_dma false 3
            (HalDmaState.mk none false true true)).2).2)).1 = true :=
  ⟨⟨rfl, rfl, rfl, by decide⟩,
   dma_single_flight.1 (HalDmaState.mk (some 0) true false true) false 3 rfl rfl,
   (dma_single_flight.2.2.2.1 (HalDmaState.mk none false true true) 3 rfl
     (by decide)).1,
   (dma_single_flight.2.2.2.1 (HalDmaState.mk none false true true) 3 rfl
     (by decide)).2.1,
   (dma_single_flight.2.2.2.1 (HalDmaState.mk none false true true) 3 rfl
     (by decide)).2.2.2⟩

end ILI9488
